import Mathlib

/-!
Verification of the polarbear indexing engine.

This file shallowly embeds the selector normaliser and indexing planner of
`polarbear/data/index.py` (functions `normalise` and `indexing`), the labelled
container of `polarbear/core/label.py` (`Labels.__new__`, `Axis.new`,
`Index.__init__`, `Labels.select`) and the axis algebra of
`polarbear/core/labels.py` (`Passthrough.select1d`, `Passthrough.at`,
`Sorted.select1d`), and proves or refutes the specified properties of those
functions.

Modelling conventions:
an ndarray selector token is represented by its shape, because every embedded
function reads only the classification (`isinstance` checks), the `ndim` and
the shape of its array tokens; the array values are carried through
`np.broadcast_arrays` unchanged in the source and are never consumed by any
function embedded here.  Python exceptions are modelled with `Except` and the
`PyErr` type; a Python function that can return `None` in place of a real
result returns an `Option`.
-/

/-- A Python `slice(start, stop, step)` value. -/
structure Slc where
  start : Option Int
  stop : Option Int
  step : Option Int
deriving DecidableEq, Repr

/-- The full slice `slice(None)`, written `:` in Python. -/
def fullSlice : Slc := ⟨none, none, none⟩

/-- A raw selector token as written by the caller: `None` (newaxis), `...`,
a slice, a Python list (converted to `np.array` by `normalise`), an
`np.ndarray` given by its shape, or an integer atom. -/
inductive RawTok
  | newaxis
  | ellipsis
  | slice (s : Slc)
  | list (sh : List Nat)
  | array (sh : List Nat)
  | atom (v : Int)
deriving DecidableEq, Repr

/-- A normalised token: the output alphabet of `normalise` (ellipsis is gone,
lists have become arrays). -/
inductive NormTok
  | newaxis
  | slice (s : Slc)
  | array (sh : List Nat)
  | atom (v : Int)
deriving DecidableEq, Repr

/-- The raw argument of `normalise`: either a tuple of tokens or any other
single value (Python: `if not isinstance(items, tuple): items = (items,)`). -/
inductive PySel
  | single (t : RawTok)
  | tup (l : List RawTok)
deriving DecidableEq, Repr

/-- The Python exceptions raised by the embedded code.
`multipleEllipsis` is the `IndexError` raised in `normalise`;
`maxEmpty` is the `ValueError` raised by `max()` on an empty sequence;
`broadcastError` is the `ValueError` raised by `np.broadcast_arrays` on a
shape conflict; `indexError` is the `IndexError` of `Labels.__new__`;
`nameError` is the `NameError` on the undefined name `NoLabel` in
`Labels.__new__`; `assertionError` is the failed `assert values.ndim == 1`
in `Index.__init__` of `polarbear/core/label.py`. -/
inductive PyErr
  | multipleEllipsis
  | maxEmpty
  | broadcastError
  | indexError
  | nameError
  | assertionError
deriving DecidableEq, Repr

/-- The `Selector` namedtuple of `polarbear/data/index.py`:
`(itarget, iselect, selector, ndim)`.  `itarget` is `-1` for a newaxis
record, hence an `Int`; for a newaxis record the `selector` field holds
Python `None`, rendered here as `NormTok.newaxis`. -/
structure Selector where
  itarget : Int
  iselect : Nat
  selector : NormTok
  ndim : Int
deriving DecidableEq, Repr

/-- Classification applied by the `normalise` loop when a token is pushed:
a Python list becomes `np.array(s)`; every other token is appended as is.
(The ellipsis case is never pushed by the loop; it is mapped arbitrarily.) -/
def classify : RawTok → NormTok
  | .newaxis => .newaxis
  | .ellipsis => .newaxis
  | .slice s => .slice s
  | .list sh => .array sh
  | .array sh => .array sh
  | .atom v => .atom v

/-- Number of dimension-consuming tokens: the counter `i` of `normalise`,
incremented for slices, lists, arrays and atoms but not for `None` or `...`. -/
def consCount : List RawTok → Nat
  | [] => 0
  | .newaxis :: r => consCount r
  | .ellipsis :: r => consCount r
  | .slice _ :: r => consCount r + 1
  | .list _ :: r => consCount r + 1
  | .array _ :: r => consCount r + 1
  | .atom _ :: r => consCount r + 1

/-- Number of ellipsis tokens in a raw selector. -/
def countEll : List RawTok → Nat
  | [] => 0
  | .ellipsis :: r => countEll r + 1
  | _ :: r => countEll r

/-- Number of dimension-consuming tokens of a normalised selection
(everything except newaxis). -/
def countConsumingNorm : List NormTok → Nat
  | [] => 0
  | .newaxis :: r => countConsumingNorm r
  | _ :: r => countConsumingNorm r + 1

/-- The loop of `normalise` in `polarbear/data/index.py`.  `front` and `back`
are the two accumulator lists, `atBack` records whether `_at` currently
aliases `back` (set once the ellipsis has been seen), `i` is the count of
consuming tokens.  A second ellipsis raises
`IndexError("an index can only have a single ellipsis ('...')")`. -/
def normLoop : List RawTok → Bool → List NormTok → List NormTok → Nat →
    Except PyErr (List NormTok × List NormTok × Nat)
  | [], _, front, back, i => .ok (front, back, i)
  | .newaxis :: rest, atBack, front, back, i =>
      if atBack then normLoop rest atBack front (back ++ [.newaxis]) i
      else normLoop rest atBack (front ++ [.newaxis]) back i
  | .ellipsis :: rest, atBack, front, back, i =>
      if atBack then .error .multipleEllipsis
      else normLoop rest true front back i
  | .slice s :: rest, atBack, front, back, i =>
      if atBack then normLoop rest atBack front (back ++ [.slice s]) (i + 1)
      else normLoop rest atBack (front ++ [.slice s]) back (i + 1)
  | .list sh :: rest, atBack, front, back, i =>
      if atBack then normLoop rest atBack front (back ++ [.array sh]) (i + 1)
      else normLoop rest atBack (front ++ [.array sh]) back (i + 1)
  | .array sh :: rest, atBack, front, back, i =>
      if atBack then normLoop rest atBack front (back ++ [.array sh]) (i + 1)
      else normLoop rest atBack (front ++ [.array sh]) back (i + 1)
  | .atom v :: rest, atBack, front, back, i =>
      if atBack then normLoop rest atBack front (back ++ [.atom v]) (i + 1)
      else normLoop rest atBack (front ++ [.atom v]) back (i + 1)

/-- `normalise(items, shape)` of `polarbear/data/index.py`: wraps a non-tuple
argument into a 1-tuple, runs the loop, then returns
`front + [slice(None)] * (len(shape) - i) + back`.  The shape is only ever
consumed through `len(shape)`, so its element type is arbitrary, exactly as
in the duck-typed source. -/
def normalise {α : Type} (items : PySel) (shape : List α) :
    Except PyErr (List NormTok) :=
  let ts := match items with
    | .tup l => l
    | .single t => [t]
  match normLoop ts false [] [] 0 with
  | .error e => .error e
  | .ok (front, back, i) =>
      .ok (front ++ List.replicate (shape.length - i) (NormTok.slice fullSlice)
        ++ back)

/-- `sum(isinstance(s, np.ndarray) for s in selection)` in `indexing`. -/
def countArrays : List NormTok → Nat
  | [] => 0
  | .array _ :: r => countArrays r + 1
  | _ :: r => countArrays r

/-- Whether a normalised token is an ndarray. -/
def isArrTok : NormTok → Bool
  | .array _ => true
  | _ => false

/-- The loop of `indexing` in `polarbear/data/index.py`: walks the normalised
selection with the input-axis counter `i` and the enumeration counter `j`,
appending basic records to `out` and, when `advanced` holds, collecting array
tokens as `(i, j, arr)` triples in `adv`. -/
def planLoop (advanced : Bool) : List NormTok → Nat → Nat → List Selector →
    List (Nat × Nat × List Nat) → List Selector × List (Nat × Nat × List Nat)
  | [], _, _, out, adv => (out, adv)
  | .newaxis :: rest, i, j, out, adv =>
      planLoop advanced rest i (j + 1)
        (out ++ [⟨-1, j, .newaxis, 1⟩]) adv
  | .array sh :: rest, i, j, out, adv =>
      if advanced then
        planLoop advanced rest (i + 1) (j + 1) out (adv ++ [(i, j, sh)])
      else
        planLoop advanced rest (i + 1) (j + 1)
          (out ++ [⟨(i : Int), j, .array sh, (sh.length : Int)⟩]) adv
  | .slice s :: rest, i, j, out, adv =>
      planLoop advanced rest (i + 1) (j + 1)
        (out ++ [⟨(i : Int), j, .slice s, 1⟩]) adv
  | .atom v :: rest, i, j, out, adv =>
      planLoop advanced rest (i + 1) (j + 1)
        (out ++ [⟨(i : Int), j, .atom v, 0⟩]) adv

/-- One dimension of the standard broadcasting rule: equal sizes agree, a
size of 1 stretches, anything else is a shape conflict
(`ValueError` in `np.broadcast_arrays`). -/
def bc2dim (a b : Nat) : Except PyErr Nat :=
  if a = b then .ok a
  else if a = 1 then .ok b
  else if b = 1 then .ok a
  else .error .broadcastError

/-- Broadcasting of two reversed shapes (least significant dimension first),
missing leading dimensions are treated as present on the other side. -/
def bcRev : List Nat → List Nat → Except PyErr (List Nat)
  | [], t => .ok t
  | a :: s, [] => .ok (a :: s)
  | a :: s, b :: t =>
      match bc2dim a b with
      | .error e => .error e
      | .ok d =>
          match bcRev s t with
          | .error e => .error e
          | .ok r => .ok (d :: r)

/-- Broadcasting of two shapes with trailing alignment. -/
def broadcast2 (s t : List Nat) : Except PyErr (List Nat) :=
  match bcRev s.reverse t.reverse with
  | .error e => .error e
  | .ok r => .ok r.reverse

/-- The common shape produced by `np.broadcast_arrays` on a list of shapes;
each output array of `np.broadcast_arrays` carries this full shape. -/
def broadcastShapes : List (List Nat) → Except PyErr (List Nat)
  | [] => .ok []
  | s :: rest =>
      match broadcastShapes rest with
      | .error e => .error e
      | .ok r => broadcast2 s r

/-- The body of `indexing` after `normalise`: mode detection
(`advanced = 1 < sum(isinstance(s, np.ndarray) ...)`), the token loop, then
the epilogue `bcst = np.broadcast_arrays(*...)`, `nmax = max(b.ndim for b in
bcst)` and the rebuilding of the advanced records with `ndim = -nmax`.
`np.broadcast_arrays` raises on a shape conflict; with no advanced triples it
returns the empty list and `max()` then raises
`ValueError: max() arg is an empty sequence` (`maxEmpty`).  With a non-empty
triple list every broadcast output has the common shape `bsh`, so
`nmax = bsh.length`.  The source returns the pair `adv, out`. -/
def plan (selection : List NormTok) :
    Except PyErr (List Selector × List Selector) :=
  let advanced := decide (1 < countArrays selection)
  let res := planLoop advanced selection 0 0 [] []
  match broadcastShapes (res.2.map (fun t => t.2.2)) with
  | .error e => .error e
  | .ok bsh =>
      if res.2.isEmpty then .error .maxEmpty
      else
        .ok (res.2.map
            (fun t => ⟨(t.1 : Int), t.2.1, .array bsh, -(bsh.length : Int)⟩),
          res.1)

/-- `indexing(sel, shape)` of `polarbear/data/index.py`. -/
def indexing {α : Type} (sel : PySel) (shape : List α) :
    Except PyErr (List Selector × List Selector) :=
  match normalise sel shape with
  | .error e => .error e
  | .ok selection => plan selection

/-- Positions (enumeration indices) of the array tokens of a normalised
selection, starting the enumeration at `j`. -/
def arrayPosFrom : List NormTok → Nat → List Nat
  | [], _ => []
  | .array _ :: r, j => j :: arrayPosFrom r (j + 1)
  | _ :: r, j => arrayPosFrom r (j + 1)

/-- Positions of the array tokens of a normalised selection, left to right. -/
def arrayPos (l : List NormTok) : List Nat := arrayPosFrom l 0

/-- Shapes of the array tokens of a normalised selection, left to right. -/
def arrShapes : List NormTok → List (List Nat)
  | [] => []
  | .array sh :: r => sh :: arrShapes r
  | _ :: r => arrShapes r

/-- Reference form of the advanced triples collected by `planLoop` when
`advanced` is true, starting from counters `i` and `j`. -/
def advRef : List NormTok → Nat → Nat → List (Nat × Nat × List Nat)
  | [], _, _ => []
  | .newaxis :: rest, i, j => advRef rest i (j + 1)
  | .array sh :: rest, i, j => (i, j, sh) :: advRef rest (i + 1) (j + 1)
  | .slice _ :: rest, i, j => advRef rest (i + 1) (j + 1)
  | .atom _ :: rest, i, j => advRef rest (i + 1) (j + 1)

/-- Reference form of the basic records collected by `planLoop` when
`advanced` is true, starting from counters `i` and `j`. -/
def outRefAdv : List NormTok → Nat → Nat → List Selector
  | [], _, _ => []
  | .newaxis :: rest, i, j => ⟨-1, j, .newaxis, 1⟩ :: outRefAdv rest i (j + 1)
  | .array _ :: rest, i, j => outRefAdv rest (i + 1) (j + 1)
  | .slice s :: rest, i, j =>
      ⟨(i : Int), j, .slice s, 1⟩ :: outRefAdv rest (i + 1) (j + 1)
  | .atom v :: rest, i, j =>
      ⟨(i : Int), j, .atom v, 0⟩ :: outRefAdv rest (i + 1) (j + 1)

/-- A dynamically typed Python value, as far as axis sizes are concerned:
either an int or a tuple of ints.  `Index.size` in
`polarbear/core/label.py` returns `self._arr.shape`, a tuple, while
`buffer.shape[i]` is an int; the two live in this common type. -/
inductive PyVal
  | int (n : Nat)
  | tup (l : List Nat)
deriving DecidableEq, Repr

/-- An `np.ndarray` of labels: its shape and its flattened contents. -/
structure NpArr where
  shape : List Nat
  data : List Int
deriving DecidableEq, Repr

/-- A datum handed to `Axis.new` of `polarbear/core/label.py`: a scalar
(no `__len__`) or a list of scalar labels. -/
inductive LabelData
  | scalar (v : Int)
  | list (l : List Int)
deriving DecidableEq, Repr

/-- The `Index` axis of `polarbear/core/label.py`: wraps one labels array. -/
structure IndexAx where
  arr : NpArr
deriving DecidableEq, Repr

/-- `Index.__init__` of `polarbear/core/label.py`: stores the array and
asserts `values.ndim == 1`. -/
def IndexAx.init (values : NpArr) : Except PyErr IndexAx :=
  if values.shape.length = 1 then .ok ⟨values⟩ else .error .assertionError

/-- The `Index.size` property of `polarbear/core/label.py`: it returns
`self._arr.shape` — the shape tuple, not an int. -/
def IndexAx.size (ax : IndexAx) : PyVal := .tup ax.arr.shape

/-- `np.array([data for _ in range(size)])`: replicating a scalar gives a 1-D
array of length `size`; replicating a list gives a 2-D array of shape
`(size, len(data))` (for `size = 0` the literal is `np.array([])`, 1-D of
length 0). -/
def npOfReplicate (d : LabelData) (size : Nat) : NpArr :=
  match d with
  | .scalar v => ⟨[size], List.replicate size v⟩
  | .list l =>
      if size = 0 then ⟨[0], []⟩
      else ⟨[size, l.length], (List.replicate size l).flatten⟩

/-- `Axis.new(data, size)` of `polarbear/core/label.py`: data without
`__len__`, or whose length disagrees with `size`, is replicated `size` times;
otherwise the list itself becomes the labels array. -/
def Axis.new (data : LabelData) (size : Nat) : Except PyErr IndexAx :=
  match data with
  | .scalar _ => IndexAx.init (npOfReplicate data size)
  | .list l =>
      if l.length ≠ size then IndexAx.init (npOfReplicate data size)
      else IndexAx.init ⟨[l.length], l⟩

/-- Sequential evaluation of `tuple(Axis.new(ax, size=n) for n, ax in
zip(shape, axes))`: the first exception raised by an `Axis.new` call wins. -/
def buildAxes : List (Nat × LabelData) → Except PyErr (List IndexAx)
  | [] => .ok []
  | p :: rest =>
      match Axis.new p.2 p.1 with
      | .error e => .error e
      | .ok ax =>
          match buildAxes rest with
          | .error e => .error e
          | .ok axs => .ok (ax :: axs)

/-- `Labels.__new__(cls, shape, *axes)` of `polarbear/core/label.py`: more
axes than dimensions raises `IndexError`; then one `Axis.new` per
`zip(shape, axes)` pair; missing trailing axes are filled with
`NoLabel(size=n)` — a name that is defined nowhere, so any non-empty filling
raises `NameError`. -/
def Labels.new (shape : List Nat) (axesData : List LabelData) :
    Except PyErr (List IndexAx) :=
  if shape.length < axesData.length then .error .indexError
  else
    match buildAxes (shape.zip axesData) with
    | .error e => .error e
    | .ok built =>
        if axesData.length < shape.length then .error .nameError
        else .ok built

/-- The `Labels.shape` property: `tuple(ax.size for ax in self)`. -/
def Labels.shape (axes : List IndexAx) : List PyVal := axes.map IndexAx.size

/-- `Labels.select` of `polarbear/core/label.py`: the body computes
`adv, idx = indexing(item, self.shape)`, prints the pair, and — the rest of
the body being a TODO comment — falls off the end, returning Python `None`
instead of the documented `(labels, idx)` pair. -/
def Labels.select (axes : List IndexAx) (item : PySel) :
    Except PyErr (Option (List IndexAx × List Selector)) :=
  match indexing item (Labels.shape axes) with
  | .error e => .error e
  | .ok _ => .ok none

/-- Acceptance condition used for the corrected construction invariant:
a scalar datum always fits, a list datum fits a dimension of its length. -/
def dataFits (n : Nat) (d : LabelData) : Prop :=
  match d with
  | .scalar _ => True
  | .list l => l.length = n

/-- The `Passthrough` axis of `polarbear/core/labels.py` (stateless). -/
inductive PassAx
  | mk
deriving DecidableEq, Repr

/-- `Passthrough.select1d` of `polarbear/core/labels.py`: an int selector
returns `(None, s)`; anything else returns `(Passthrough(), s)`. -/
def Passthrough.select1d (s : RawTok) : Option PassAx × RawTok :=
  match s with
  | .atom _ => (none, s)
  | _ => (some .mk, s)

/-- `Passthrough.at` of `polarbear/core/labels.py`: the body is
`return Passthrough()` for every input, scalar or not. -/
def Passthrough.at (_self : PassAx) (_item : RawTok) : Option PassAx :=
  some PassAx.mk

/-- The `Sorted` axis of `polarbear/core/labels.py`: a sorted labels array. -/
structure SortedAx where
  data : List Int
deriving DecidableEq, Repr

/-- `Sorted.select1d` of `polarbear/core/labels.py`: the body of the method
consists only of its docstring, so the Python function returns `None` for
every selector (instead of the `(axis, positional selector)` pair promised
by the abstract `Axis.select1d` contract). -/
def Sorted.select1d (_self : SortedAx) (_s : RawTok) :
    Option (Option SortedAx × RawTok) :=
  none

/-! ## Helper lemmas about the normaliser loop -/

/-- Before the ellipsis, a run of ellipsis-free tokens is appended (in
classified form) to the `front` accumulator while bumping the consuming
counter. -/
theorem normLoop_front_noell :
    ∀ (pre : List RawTok), countEll pre = 0 →
    ∀ (rest : List RawTok) (front back : List NormTok) (i : Nat),
      normLoop (pre ++ rest) false front back i
        = normLoop rest false (front ++ pre.map classify) back
            (i + consCount pre) := by
  intro pre
  induction pre with
  | nil =>
    intro _ rest front back i
    simp [consCount]
  | cons t ts ih =>
    intro h rest front back i
    cases t with
    | ellipsis => simp [countEll] at h
    | newaxis =>
      have h' : countEll ts = 0 := by simpa [countEll] using h
      show normLoop (ts ++ rest) false (front ++ [.newaxis]) back i = _
      rw [ih h']
      simp [classify, consCount, List.append_assoc]
    | slice s =>
      have h' : countEll ts = 0 := by simpa [countEll] using h
      show normLoop (ts ++ rest) false (front ++ [.slice s]) back (i + 1) = _
      rw [ih h']
      simp only [List.map_cons, classify, consCount, List.append_assoc,
        List.singleton_append]
      congr 1
      omega
    | list sh =>
      have h' : countEll ts = 0 := by simpa [countEll] using h
      show normLoop (ts ++ rest) false (front ++ [.array sh]) back (i + 1) = _
      rw [ih h']
      simp only [List.map_cons, classify, consCount, List.append_assoc,
        List.singleton_append]
      congr 1
      omega
    | array sh =>
      have h' : countEll ts = 0 := by simpa [countEll] using h
      show normLoop (ts ++ rest) false (front ++ [.array sh]) back (i + 1) = _
      rw [ih h']
      simp only [List.map_cons, classify, consCount, List.append_assoc,
        List.singleton_append]
      congr 1
      omega
    | atom v =>
      have h' : countEll ts = 0 := by simpa [countEll] using h
      show normLoop (ts ++ rest) false (front ++ [.atom v]) back (i + 1) = _
      rw [ih h']
      simp only [List.map_cons, classify, consCount, List.append_assoc,
        List.singleton_append]
      congr 1
      omega

/-- An ellipsis-free run with no continuation terminates the loop. -/
theorem normLoop_noell_done (ts : List RawTok) (h : countEll ts = 0)
    (front back : List NormTok) (i : Nat) :
    normLoop ts false front back i
      = .ok (front ++ ts.map classify, back, i + consCount ts) := by
  have := normLoop_front_noell ts h [] front back i
  rw [List.append_nil] at this
  rw [this]
  rfl

/-- After the ellipsis, an ellipsis-free run is appended (classified) to the
`back` accumulator. -/
theorem normLoop_back_noell :
    ∀ (ts : List RawTok), countEll ts = 0 →
    ∀ (front back : List NormTok) (i : Nat),
      normLoop ts true front back i
        = .ok (front, back ++ ts.map classify, i + consCount ts) := by
  intro ts
  induction ts with
  | nil =>
    intro _ front back i
    simp [normLoop, consCount]
  | cons t rest ih =>
    intro h front back i
    cases t with
    | ellipsis => simp [countEll] at h
    | newaxis =>
      have h' : countEll rest = 0 := by simpa [countEll] using h
      show normLoop rest true front (back ++ [.newaxis]) i = _
      rw [ih h']
      simp [classify, consCount, List.append_assoc]
    | slice s =>
      have h' : countEll rest = 0 := by simpa [countEll] using h
      show normLoop rest true front (back ++ [.slice s]) (i + 1) = _
      rw [ih h']
      simp only [List.map_cons, classify, consCount, List.append_assoc,
        List.singleton_append, Except.ok.injEq, Prod.mk.injEq, true_and]
      omega
    | list sh =>
      have h' : countEll rest = 0 := by simpa [countEll] using h
      show normLoop rest true front (back ++ [.array sh]) (i + 1) = _
      rw [ih h']
      simp only [List.map_cons, classify, consCount, List.append_assoc,
        List.singleton_append, Except.ok.injEq, Prod.mk.injEq, true_and]
      omega
    | array sh =>
      have h' : countEll rest = 0 := by simpa [countEll] using h
      show normLoop rest true front (back ++ [.array sh]) (i + 1) = _
      rw [ih h']
      simp only [List.map_cons, classify, consCount, List.append_assoc,
        List.singleton_append, Except.ok.injEq, Prod.mk.injEq, true_and]
      omega
    | atom v =>
      have h' : countEll rest = 0 := by simpa [countEll] using h
      show normLoop rest true front (back ++ [.atom v]) (i + 1) = _
      rw [ih h']
      simp only [List.map_cons, classify, consCount, List.append_assoc,
        List.singleton_append, Except.ok.injEq, Prod.mk.injEq, true_and]
      omega

/-- Once `_at` aliases `back`, any further ellipsis raises the
`IndexError`. -/
theorem normLoop_back_ell :
    ∀ (ts : List RawTok), 1 ≤ countEll ts →
    ∀ (front back : List NormTok) (i : Nat),
      normLoop ts true front back i = .error .multipleEllipsis := by
  intro ts
  induction ts with
  | nil =>
    intro h
    simp [countEll] at h
  | cons t rest ih =>
    intro h front back i
    cases t with
    | ellipsis => rfl
    | newaxis =>
      have h' : 1 ≤ countEll rest := by simpa [countEll] using h
      exact ih h' front (back ++ [.newaxis]) i
    | slice s =>
      have h' : 1 ≤ countEll rest := by simpa [countEll] using h
      exact ih h' front (back ++ [.slice s]) (i + 1)
    | list sh =>
      have h' : 1 ≤ countEll rest := by simpa [countEll] using h
      exact ih h' front (back ++ [.array sh]) (i + 1)
    | array sh =>
      have h' : 1 ≤ countEll rest := by simpa [countEll] using h
      exact ih h' front (back ++ [.array sh]) (i + 1)
    | atom v =>
      have h' : 1 ≤ countEll rest := by simpa [countEll] using h
      exact ih h' front (back ++ [.atom v]) (i + 1)

/-- Two or more ellipses always raise the `IndexError`. -/
theorem normLoop_front_twoell :
    ∀ (ts : List RawTok), 2 ≤ countEll ts →
    ∀ (front back : List NormTok) (i : Nat),
      normLoop ts false front back i = .error .multipleEllipsis := by
  intro ts
  induction ts with
  | nil =>
    intro h
    simp [countEll] at h
  | cons t rest ih =>
    intro h front back i
    cases t with
    | ellipsis =>
      have h' : 1 ≤ countEll rest := by simp [countEll] at h; omega
      show normLoop rest true front back i = _
      exact normLoop_back_ell rest h' front back i
    | newaxis =>
      have h' : 2 ≤ countEll rest := by simpa [countEll] using h
      exact ih h' (front ++ [.newaxis]) back i
    | slice s =>
      have h' : 2 ≤ countEll rest := by simpa [countEll] using h
      exact ih h' (front ++ [.slice s]) back (i + 1)
    | list sh =>
      have h' : 2 ≤ countEll rest := by simpa [countEll] using h
      exact ih h' (front ++ [.array sh]) back (i + 1)
    | array sh =>
      have h' : 2 ≤ countEll rest := by simpa [countEll] using h
      exact ih h' (front ++ [.array sh]) back (i + 1)
    | atom v =>
      have h' : 2 ≤ countEll rest := by simpa [countEll] using h
      exact ih h' (front ++ [.atom v]) back (i + 1)

/-- Consuming-token count distributes over append. -/
theorem ccn_append (a b : List NormTok) :
    countConsumingNorm (a ++ b)
      = countConsumingNorm a + countConsumingNorm b := by
  induction a with
  | nil => simp [countConsumingNorm]
  | cons t rest ih =>
    cases t <;> simp [countConsumingNorm, ih] <;> omega

/-- Classification preserves the consuming count. -/
theorem ccn_map_classify (ts : List RawTok) :
    countConsumingNorm (ts.map classify) = consCount ts := by
  induction ts with
  | nil => rfl
  | cons t rest ih =>
    cases t <;> simp [classify, countConsumingNorm, consCount, ih]

/-- A padding run of full slices consumes one dimension per slice. -/
theorem ccn_replicate (k : Nat) :
    countConsumingNorm (List.replicate k (NormTok.slice fullSlice)) = k := by
  induction k with
  | zero => rfl
  | succ n ih => simp [List.replicate, countConsumingNorm, ih]

/-! ## Helper lemmas about the planner loop -/

/-- In advanced mode the planner loop splits the selection into the basic
records and the advanced triples, in order. -/
theorem planLoop_true_eq :
    ∀ (ts : List NormTok) (i j : Nat) (out : List Selector)
      (adv : List (Nat × Nat × List Nat)),
      planLoop true ts i j out adv
        = (out ++ outRefAdv ts i j, adv ++ advRef ts i j) := by
  intro ts
  induction ts with
  | nil =>
    intro i j out adv
    simp [planLoop, outRefAdv, advRef]
  | cons t rest ih =>
    intro i j out adv
    cases t with
    | newaxis =>
      show planLoop true rest i (j + 1) (out ++ [⟨-1, j, .newaxis, 1⟩]) adv = _
      rw [ih]
      simp [outRefAdv, advRef, List.append_assoc]
    | array sh =>
      show planLoop true rest (i + 1) (j + 1) out (adv ++ [(i, j, sh)]) = _
      rw [ih]
      simp [outRefAdv, advRef, List.append_assoc]
    | slice s =>
      show planLoop true rest (i + 1) (j + 1)
          (out ++ [⟨(i : Int), j, .slice s, 1⟩]) adv = _
      rw [ih]
      simp [outRefAdv, advRef, List.append_assoc]
    | atom v =>
      show planLoop true rest (i + 1) (j + 1)
          (out ++ [⟨(i : Int), j, .atom v, 0⟩]) adv = _
      rw [ih]
      simp [outRefAdv, advRef, List.append_assoc]

/-- The enumeration indices of the advanced triples are exactly the positions
of the array tokens. -/
theorem advRef_pos :
    ∀ (ts : List NormTok) (i j : Nat),
      (advRef ts i j).map (fun t => t.2.1) = arrayPosFrom ts j := by
  intro ts
  induction ts with
  | nil => intro i j; rfl
  | cons t rest ih =>
    intro i j
    cases t <;> simp [advRef, arrayPosFrom, ih]

/-- The shapes of the advanced triples are exactly the array token shapes. -/
theorem advRef_shapes :
    ∀ (ts : List NormTok) (i j : Nat),
      (advRef ts i j).map (fun t => t.2.2) = arrShapes ts := by
  intro ts
  induction ts with
  | nil => intro i j; rfl
  | cons t rest ih =>
    intro i j
    cases t <;> simp [advRef, arrShapes, ih]

/-- There is one advanced triple per array token. -/
theorem advRef_len :
    ∀ (ts : List NormTok) (i j : Nat),
      (advRef ts i j).length = countArrays ts := by
  intro ts
  induction ts with
  | nil => intro i j; rfl
  | cons t rest ih =>
    intro i j
    cases t <;> simp [advRef, countArrays, ih]

/-- In advanced mode no basic record carries an array token. -/
theorem outRefAdv_no_arr :
    ∀ (ts : List NormTok) (i j : Nat) (r : Selector),
      r ∈ outRefAdv ts i j → isArrTok r.selector = false := by
  intro ts
  induction ts with
  | nil =>
    intro i j r hr
    simp [outRefAdv] at hr
  | cons t rest ih =>
    intro i j r hr
    cases t with
    | newaxis =>
      simp only [outRefAdv, List.mem_cons] at hr
      rcases hr with rfl | hr
      · rfl
      · exact ih _ _ _ hr
    | array sh => exact ih _ _ _ hr
    | slice s =>
      simp only [outRefAdv, List.mem_cons] at hr
      rcases hr with rfl | hr
      · rfl
      · exact ih _ _ _ hr
    | atom v =>
      simp only [outRefAdv, List.mem_cons] at hr
      rcases hr with rfl | hr
      · rfl
      · exact ih _ _ _ hr

/-- Closed form of `plan` in advanced mode (two or more array tokens). -/
theorem plan_eq_of_adv (s : List NormTok) (h : 1 < countArrays s) :
    plan s = match broadcastShapes (arrShapes s) with
      | .error e => .error e
      | .ok bsh =>
          if (advRef s 0 0).isEmpty then .error .maxEmpty
          else .ok ((advRef s 0 0).map
              (fun t => ⟨(t.1 : Int), t.2.1, .array bsh, -(bsh.length : Int)⟩),
            outRefAdv s 0 0) := by
  simp only [plan, decide_eq_true h, planLoop_true_eq, List.nil_append,
    advRef_shapes]

/-- Closed form of `normalise` on a selector with exactly one ellipsis: the
ellipsis is replaced by `len(shape) - i` full slices (truncated at zero),
with the classified front and back tokens kept in order around it. -/
theorem normalise_ellipsis_closed_form
    (pre post : List RawTok) (shape : List Nat)
    (h1 : countEll pre = 0) (h2 : countEll post = 0) :
    normalise (.tup (pre ++ .ellipsis :: post)) shape
      = .ok (pre.map classify
          ++ List.replicate (shape.length - (consCount pre + consCount post))
              (NormTok.slice fullSlice)
          ++ post.map classify) := by
  simp only [normalise]
  rw [normLoop_front_noell pre h1]
  rw [show normLoop (.ellipsis :: post) false
        (([] : List NormTok) ++ pre.map classify) [] (0 + consCount pre)
      = normLoop post true (([] : List NormTok) ++ pre.map classify) []
        (0 + consCount pre) from rfl]
  rw [normLoop_back_noell post h2]
  simp [Nat.add_assoc]

/-- `normalise` on a selector with two or more ellipses raises the
`IndexError` of the source. -/
theorem normalise_twoell_error (toks : List RawTok) (shape : List Nat)
    (h : 2 ≤ countEll toks) :
    normalise (.tup toks) shape = .error .multipleEllipsis := by
  simp only [normalise]
  rw [normLoop_front_twoell toks h]

/-- C6 (corrected): a single ellipsis expands to
`max(0, len(shape) - consuming)` full slices in place, so the consuming count
of the result equals `len(shape)` exactly when the selector consumes at most
`len(shape)` dimensions; two or more ellipses fail with the MultipleEllipsis
error.  (The claim as frozen asserts the count always equals `len(shape)`;
see the counterexample for an over-length selector where it cannot.) -/
theorem normalise_ellipsis_expansion :
    (∀ (pre post : List RawTok) (shape : List Nat),
       countEll pre = 0 → countEll post = 0 →
       normalise (.tup (pre ++ .ellipsis :: post)) shape
         = .ok (pre.map classify
             ++ List.replicate
                 (shape.length - (consCount pre + consCount post))
                 (NormTok.slice fullSlice)
             ++ post.map classify)) ∧
    (∀ (pre post : List RawTok) (shape : List Nat),
       countEll pre = 0 → countEll post = 0 →
       consCount pre + consCount post ≤ shape.length →
       ∃ l, normalise (.tup (pre ++ .ellipsis :: post)) shape = .ok l ∧
         countConsumingNorm l = shape.length) ∧
    (∀ (toks : List RawTok) (shape : List Nat),
       2 ≤ countEll toks →
       normalise (.tup toks) shape = .error .multipleEllipsis) := by
  refine ⟨normalise_ellipsis_closed_form, ?_, normalise_twoell_error⟩
  intro pre post shape h1 h2 hle
  refine ⟨_, normalise_ellipsis_closed_form pre post shape h1 h2, ?_⟩
  rw [ccn_append, ccn_append, ccn_map_classify, ccn_map_classify,
    ccn_replicate]
  omega

/-- C6 witness: concrete instances of all three parts. -/
theorem normalise_ellipsis_expansion_witness :
    (normalise (.tup [.atom 0, .ellipsis, .slice fullSlice])
       ([5, 6, 7] : List Nat)
       = .ok [.atom 0, .slice fullSlice, .slice fullSlice]) ∧
    (∃ l, normalise (.tup [.atom 0, .ellipsis, .slice fullSlice])
       ([5, 6, 7] : List Nat) = .ok l ∧ countConsumingNorm l = 3) ∧
    normalise (.tup [.ellipsis, .ellipsis]) ([3] : List Nat)
      = .error .multipleEllipsis :=
  ⟨normalise_ellipsis_expansion.1 [.atom 0] [.slice fullSlice] [5, 6, 7]
     rfl rfl,
   normalise_ellipsis_expansion.2.1 [.atom 0] [.slice fullSlice] [5, 6, 7]
     rfl rfl (by decide),
   normalise_ellipsis_expansion.2.2 [.ellipsis, .ellipsis] [3] (by decide)⟩

/-- C6 counterexample: with one ellipsis but three consuming tokens against a
1-dimensional shape, `normalise` succeeds and the consuming count of the
result is 2, not `len(shape) = 1` — no number of inserted full slices can
make them equal, and the code inserts none. -/
theorem normalise_ellipsis_overlength_count :
    normalise (.tup [.atom 0, .atom 1, .ellipsis]) ([1] : List Nat)
      = .ok [.atom 0, .atom 1] ∧
    countConsumingNorm [.atom 0, .atom 1] ≠ ([1] : List Nat).length :=
  ⟨rfl, by decide⟩

/-- C5 (corrected): `normalise` performs no over-length check at all.  With
no ellipsis and at least as many consuming tokens as dimensions it returns
the classified tokens unchanged — `len(shape) - i` truncates at zero, so no
padding is added and no error of any kind is raised. -/
theorem normalise_overlength_returns_tokens
    (toks : List RawTok) (shape : List Nat)
    (h : countEll toks = 0) (hle : shape.length ≤ consCount toks) :
    normalise (.tup toks) shape = .ok (toks.map classify) := by
  simp only [normalise]
  rw [normLoop_noell_done toks h]
  have hz : shape.length - consCount toks = 0 := by omega
  simp [hz]

/-- C5 witness: a 3-token no-ellipsis selector against a 1-dimensional
shape comes back unchanged. -/
theorem normalise_overlength_returns_tokens_witness :
    normalise (.tup [.atom 5, .slice fullSlice, .atom 6]) ([2] : List Nat)
      = .ok [.atom 5, .slice fullSlice, .atom 6] :=
  normalise_overlength_returns_tokens [.atom 5, .slice fullSlice, .atom 6]
    [2] rfl (by decide)

/-- C5 counterexample: the claim predicts that a 4-element selector tuple
against shape `(3, 4)` raises TooManyIndices; the code raises nothing and
returns the four tokens unchanged. -/
theorem normalise_overlength_no_error :
    normalise (.tup [.atom 0, .atom 1, .atom 2, .atom 3]) ([3, 4] : List Nat)
      = .ok [.atom 0, .atom 1, .atom 2, .atom 3] := rfl

/-- C10 (confirmed): any non-tuple selector is wrapped into a 1-tuple, so
`normalise(s, shape) = normalise((s,), shape)`; in particular a top-level
Python list becomes a single array token applied to the first axis, padded
with full slices — never a per-axis sequence of selectors. -/
theorem normalise_nontuple_wraps :
    (∀ (t : RawTok) (shape : List Nat),
       normalise (.single t) shape = normalise (.tup [t]) shape) ∧
    (∀ (sh : List Nat) (shape : List Nat),
       normalise (.single (.list sh)) shape
         = .ok (.array sh
             :: List.replicate (shape.length - 1) (NormTok.slice fullSlice))) := by
  constructor
  · intro t shape
    rfl
  · intro sh shape
    simp [normalise, normLoop]

/-- With two or more array tokens there is at least one advanced triple. -/
theorem advRef_not_empty (s : List NormTok) (h : 1 < countArrays s) :
    (advRef s 0 0).isEmpty = false := by
  rcases he : advRef s 0 0 with _ | ⟨a, l⟩
  · exfalso
    have hl := advRef_len s 0 0
    rw [he] at hl
    simp at hl
    omega
  · rfl

/-- C2 (corrected): the planner performs no adjacency analysis at all.  In
advanced mode it always returns the advanced records in a separate leading
tuple — in original left-to-right order of the array tokens — and the second
component holds only the basic records; this is so whether or not the
advanced tokens are contiguous among the consuming tokens. -/
theorem plan_advanced_always_front
    (selection : List NormTok) (adv out : List Selector)
    (h2 : 1 < countArrays selection)
    (hok : plan selection = .ok (adv, out)) :
    adv.map Selector.iselect = arrayPos selection ∧
      ∀ r ∈ out, isArrTok r.selector = false := by
  rw [plan_eq_of_adv selection h2] at hok
  have hne := advRef_not_empty selection h2
  cases hbc : broadcastShapes (arrShapes selection) with
  | error e =>
    rw [hbc] at hok
    exact Except.noConfusion hok
  | ok bsh =>
    rw [hbc] at hok
    simp [hne] at hok
    obtain ⟨ha, hb⟩ := hok
    constructor
    · rw [← ha, List.map_map]
      rw [show (Selector.iselect ∘ fun (t : Nat × Nat × List Nat) =>
          (⟨(t.1 : Int), t.2.1, .array bsh, -(bsh.length : Int)⟩ : Selector))
          = fun t => t.2.1 from rfl]
      rw [advRef_pos]
      rfl
    · intro r hr
      rw [← hb] at hr
      exact outRefAdv_no_arr _ _ _ _ hr

/-- C2 witness: the conclusion of `plan_advanced_always_front` at the
adjacent-advanced selection `(slice(None), array, array)` over `(3, 4, 5)`. -/
theorem plan_advanced_always_front_witness :
    ([⟨1, 1, .array [2], -1⟩, ⟨2, 2, .array [2], -1⟩] : List Selector).map
        Selector.iselect
      = arrayPos [.slice fullSlice, .array [2], .array [2]] ∧
    ∀ r ∈ ([⟨0, 0, .slice fullSlice, 1⟩] : List Selector),
      isArrTok r.selector = false :=
  plan_advanced_always_front [.slice fullSlice, .array [2], .array [2]]
    [⟨1, 1, .array [2], -1⟩, ⟨2, 2, .array [2], -1⟩]
    [⟨0, 0, .slice fullSlice, 1⟩] (by decide) rfl

/-- C2 counterexample: the spec example of adjacent advanced tokens, shape
`(3, 4, 5)` with selector `(slice(None), array([0, 1]), array([0, 1]))`.
The claim requires the broadcast block to stay in its original relative
output position (after the slice dimension); instead `indexing` extracts
both array records into the separate leading tuple and the positional
output sequence holds only the slice record, exactly as in the
non-adjacent case. -/
theorem indexing_adjacent_advanced_not_in_place :
    indexing (.tup [.slice fullSlice, .array [2], .array [2]])
      ([3, 4, 5] : List Nat)
      = .ok ([⟨1, 1, .array [2], -1⟩, ⟨2, 2, .array [2], -1⟩],
          [⟨0, 0, .slice fullSlice, 1⟩]) := rfl

/-- C3 (code_bug): with exactly one array token, `advanced` is false and the
single array is classified as a basic record in place — but the advanced
broadcasting epilogue still runs: `np.broadcast_arrays()` of no arrays
returns the empty list, and `max(b.ndim for b in bcst)` then raises
`ValueError: max() arg is an empty sequence`, so `indexing` never returns
for any selection with fewer than two array tokens. -/
theorem indexing_single_array_value_error :
    indexing (.single (.array [2])) ([3] : List Nat) = .error .maxEmpty := rfl

/-- C4 (confirmed): all advanced array tokens are broadcast together with
the standard trailing-alignment size-1-stretch rules — two unequal non-1
sizes at the same position are a broadcast error, and a broadcast failure is
the result of the whole plan; on success every advanced record carries the
same `ndim = -nmax`, where `nmax` is the dimensionality of the shared
broadcast result block. -/
theorem plan_advanced_broadcast_ndim :
    (∀ a b : Nat, a ≠ b → a ≠ 1 → b ≠ 1 →
       bc2dim a b = .error .broadcastError) ∧
    (∀ (selection : List NormTok) (e : PyErr), 1 < countArrays selection →
       broadcastShapes (arrShapes selection) = .error e →
       plan selection = .error e) ∧
    (∀ (selection : List NormTok) (bsh : List Nat),
       1 < countArrays selection →
       broadcastShapes (arrShapes selection) = .ok bsh →
       ∃ adv out, plan selection = .ok (adv, out) ∧
         adv.length = countArrays selection ∧
         ∀ r ∈ adv, r.ndim = -(bsh.length : Int)) := by
  refine ⟨?_, ?_, ?_⟩
  · intro a b h1 h2 h3
    simp [bc2dim, h1, h2, h3]
  · intro s e h2 hbc
    rw [plan_eq_of_adv s h2, hbc]
  · intro s bsh h2 hbc
    have hne := advRef_not_empty s h2
    refine ⟨(advRef s 0 0).map
        (fun t => ⟨(t.1 : Int), t.2.1, .array bsh, -(bsh.length : Int)⟩),
      outRefAdv s 0 0, ?_, ?_, ?_⟩
    · rw [plan_eq_of_adv s h2, hbc]
      simp [hne]
    · rw [List.length_map, advRef_len]
    · intro r hr
      rcases List.mem_map.1 hr with ⟨t, _, rfl⟩
      rfl

/-- C4 witness: a 2-versus-3 conflict is a broadcast error and fails the
whole plan; shapes `(2, 1)` and `(3,)` broadcast to `(2, 3)` and both
records carry `ndim = -2`. -/
theorem plan_advanced_broadcast_ndim_witness :
    bc2dim 2 3 = .error .broadcastError ∧
    plan [.array [2], .array [3]] = .error .broadcastError ∧
    ∃ adv out, plan [.array [2, 1], .array [3]] = .ok (adv, out) ∧
      adv.length = countArrays [.array [2, 1], .array [3]] ∧
      ∀ r ∈ adv, r.ndim = -(([2, 3] : List Nat).length : Int) :=
  ⟨plan_advanced_broadcast_ndim.1 2 3 (by decide) (by decide) (by decide),
   plan_advanced_broadcast_ndim.2.1 [.array [2], .array [3]] .broadcastError
     (by decide) rfl,
   plan_advanced_broadcast_ndim.2.2 [.array [2, 1], .array [3]] [2, 3]
     (by decide) rfl⟩

/-- Each fitting `(size, datum)` pair builds an `Index` axis whose labels
array is 1-dimensional of length `size`, so its `size` attribute is the
one-element shape tuple. -/
theorem buildAxes_fits :
    ∀ (shape : List Nat) (dat : List LabelData),
      List.Forall₂ dataFits shape dat →
      ∃ axs, buildAxes (shape.zip dat) = .ok axs ∧
        axs.map IndexAx.size = shape.map (fun n => PyVal.tup [n]) := by
  intro shape dat h
  induction h with
  | nil => exact ⟨[], rfl, rfl⟩
  | @cons n d shape' dat' hfit hrest ih =>
    obtain ⟨axs, hm, hs⟩ := ih
    cases d with
    | scalar v =>
      refine ⟨⟨⟨[n], List.replicate n v⟩⟩ :: axs, ?_, ?_⟩
      · have ha : Axis.new (.scalar v) n
            = .ok ⟨⟨[n], List.replicate n v⟩⟩ := rfl
        have hm' : buildAxes (List.zipWith Prod.mk shape' dat')
            = Except.ok axs := hm
        simp [List.zip_cons_cons, buildAxes, ha, hm']
      · simp [IndexAx.size, hs]
    | list l =>
      have hl : l.length = n := hfit
      refine ⟨⟨⟨[l.length], l⟩⟩ :: axs, ?_, ?_⟩
      · have ha : Axis.new (.list l) n = .ok ⟨⟨[l.length], l⟩⟩ := by
          subst hl
          simp [Axis.new, IndexAx.init]
        have hm' : buildAxes (List.zipWith Prod.mk shape' dat')
            = Except.ok axs := hm
        simp [List.zip_cons_cons, buildAxes, ha, hm']
      · simp [IndexAx.size, hs, hl]

/-- C8 (corrected): after a successful construction with one axis datum per
dimension (a scalar, which is replicated, or a list matching its dimension),
the container holds exactly one axis per dimension, but `axes[i].size` is the
one-element shape tuple `(shape[i],)` rather than the integer `shape[i]`;
more axes than dimensions raise `IndexError`; there is no AxisMismatch — a
length-mismatched list axis instead trips the 1-D assertion of
`Index.__init__` (the replicated array is 2-D), and fewer axes than
dimensions hit the undefined name `NoLabel` (`NameError`). -/
theorem labels_new_invariants :
    (∀ (shape : List Nat) (dat : List LabelData),
       List.Forall₂ dataFits shape dat →
       ∃ axs, Labels.new shape dat = .ok axs ∧ axs.length = shape.length ∧
         axs.map IndexAx.size = shape.map (fun n => PyVal.tup [n])) ∧
    (∀ (shape : List Nat) (dat : List LabelData),
       shape.length < dat.length →
       Labels.new shape dat = .error .indexError) ∧
    Labels.new [2] [.list [1, 2, 3]] = .error .assertionError ∧
    Labels.new [2, 2] [.list [1, 2]] = .error .nameError := by
  refine ⟨?_, ?_, rfl, rfl⟩
  · intro shape dat h
    have hlen := h.length_eq
    obtain ⟨axs, hm, hs⟩ := buildAxes_fits shape dat h
    have hn1 : ¬ (shape.length < dat.length) := by omega
    have hn2 : ¬ (dat.length < shape.length) := by omega
    refine ⟨axs, ?_, ?_, hs⟩
    · simp [Labels.new, hn1, hn2, hm]
    · have := congrArg List.length hs
      simpa using this
  · intro shape dat h
    simp [Labels.new, h]

/-- C8 witness: shape `(2, 3)` with a scalar and a fitting list. -/
theorem labels_new_invariants_witness :
    (∃ axs, Labels.new [2, 3] [.scalar 7, .list [9, 8, 10]] = .ok axs ∧
       axs.length = ([2, 3] : List Nat).length ∧
       axs.map IndexAx.size
         = ([2, 3] : List Nat).map (fun n => PyVal.tup [n])) ∧
    Labels.new [1] [.scalar 0, .scalar 1] = .error .indexError :=
  ⟨labels_new_invariants.1 [2, 3] [.scalar 7, .list [9, 8, 10]]
     (List.Forall₂.cons trivial (List.Forall₂.cons rfl List.Forall₂.nil)),
   labels_new_invariants.2.1 [1] [.scalar 0, .scalar 1] (by decide)⟩

/-- C8 counterexample: constructing over buffer shape `(3,)` with the
fitting labels `[1, 2, 3]` succeeds, yet `axes[0].size` evaluates to the
tuple `(3,)` — `Index.size` returns `self._arr.shape` — which is not the
Python int `3`, so the claimed invariant `axes[i].size == buffer.shape[i]`
fails even in the best case. -/
theorem labels_new_size_is_tuple :
    Labels.new [3] [.list [1, 2, 3]] = .ok [⟨⟨[3], [1, 2, 3]⟩⟩] ∧
    IndexAx.size ⟨⟨[3], [1, 2, 3]⟩⟩ = .tup [3] ∧
    IndexAx.size ⟨⟨[3], [1, 2, 3]⟩⟩ ≠ .int 3 :=
  ⟨rfl, rfl, by decide⟩

/-- C1 (code_bug): `Labels.select` computes the indexing plan for the item,
prints it, and — its body ending at a TODO comment — returns Python `None`
instead of the documented `(result labels, positional selector)` pair, for
this two-list advanced selection over labelled shape `(2, 2)`; no shape
consistency statement can hold because no positional selector is ever
produced (and `DataSet.__getitem__` crashes unpacking the `None`). -/
theorem labels_select_returns_none :
    Labels.select [⟨⟨[2], [1, 2]⟩⟩, ⟨⟨[2], [3, 4]⟩⟩]
      (.tup [.list [1], .list [1]]) = .ok none := rfl

/-- C7 (code_bug): the body of `Sorted.select1d` consists only of its
docstring, so selecting the middle label of the strictly increasing axis
`[10, 20, 30]` returns Python `None` rather than resolving label `20` to
position `1` with a `Sorted` result axis as the claim (and the abstract
`Axis.select1d` contract) requires. -/
theorem sorted_select1d_stub_none :
    Sorted.select1d ⟨[10, 20, 30]⟩ (.atom 20) = none := rfl

/-- C9 counterexample: `Passthrough.at` with the scalar atom `12` returns a
fresh `Passthrough`, not `None` — the repository test asserts exactly this
(`'At' ignores unit of selection`). -/
theorem passthrough_at_scalar_not_none :
    Passthrough.at PassAx.mk (.atom 12) = some PassAx.mk ∧
    Passthrough.at PassAx.mk (.atom 12) ≠ none :=
  ⟨rfl, by decide⟩

/-- C9 (corrected): the positional `at` operation on a `Passthrough` axis
returns a fresh `Passthrough` for every input, scalar atoms included; only
`select1d` special-cases int input to `None`. -/
theorem passthrough_at_always_passthrough :
    ∀ (s : RawTok), Passthrough.at PassAx.mk s = some PassAx.mk := by
  intro s
  rfl
